import Mathlib

/-!
Verification development for the Mercado Público purchase-order harvester
(`consulta_api.py`).  The pipeline has two phases: a discovery phase
(`listar_oc_por_rango`) that enumerates (date, organism) query cells and
deduplicates the purchase-order codes returned, and a fetch phase
(`descargar_detalle_y_escribir`) that downloads one detail record per code,
applies an inclusive [desde, hasta] creation-date filter, projects accepted
records into fixed-schema rows (`construir_fila_oc`) and streams them to a
CSV sink in bounded batches.  Requests go through `request_with_retries`.

The embedding models Python/JSON values with the inductive `Val`, Python
attribute/subscript errors with `PyErr`, and fallible code with `Except`.
Machine-level details that the claims do not touch (actual HTTP, logging,
tqdm progress bars, the CSV text encoding) are abstracted away; the
dateutil parser and the date rendering are abstracted as a `DateLib`
parameter, since they are third-party code outside this repository.
-/

namespace MP

/-- Model of a Python/JSON value: `None`, booleans, numbers, strings,
lists and (insertion-ordered) dicts with string keys. -/
inductive Val where
  | vNone : Val
  | vBool (b : Bool) : Val
  | vNum (n : Int) : Val
  | vStr (s : String) : Val
  | vList (l : List Val) : Val
  | vDict (d : List (String × Val)) : Val

/-- Exceptions the modelled fragments of the source can raise. -/
inductive PyErr where
  | attributeError : PyErr
  | typeError : PyErr
  | indexError : PyErr
  | keyError : PyErr
deriving DecidableEq, Repr

mutual
def Val.decEq : (a b : Val) → Decidable (a = b)
  | .vNone, .vNone => .isTrue rfl
  | .vBool a, .vBool b => decidable_of_iff (a = b) (by simp)
  | .vNum a, .vNum b => decidable_of_iff (a = b) (by simp)
  | .vStr a, .vStr b => decidable_of_iff (a = b) (by simp)
  | .vList a, .vList b =>
    have : Decidable (a = b) := Val.decEqList a b
    decidable_of_iff (a = b) (by simp)
  | .vDict a, .vDict b =>
    have : Decidable (a = b) := Val.decEqDict a b
    decidable_of_iff (a = b) (by simp)
  | .vNone, .vBool _ => .isFalse nofun
  | .vNone, .vNum _ => .isFalse nofun
  | .vNone, .vStr _ => .isFalse nofun
  | .vNone, .vList _ => .isFalse nofun
  | .vNone, .vDict _ => .isFalse nofun
  | .vBool _, .vNone => .isFalse nofun
  | .vBool _, .vNum _ => .isFalse nofun
  | .vBool _, .vStr _ => .isFalse nofun
  | .vBool _, .vList _ => .isFalse nofun
  | .vBool _, .vDict _ => .isFalse nofun
  | .vNum _, .vNone => .isFalse nofun
  | .vNum _, .vBool _ => .isFalse nofun
  | .vNum _, .vStr _ => .isFalse nofun
  | .vNum _, .vList _ => .isFalse nofun
  | .vNum _, .vDict _ => .isFalse nofun
  | .vStr _, .vNone => .isFalse nofun
  | .vStr _, .vBool _ => .isFalse nofun
  | .vStr _, .vNum _ => .isFalse nofun
  | .vStr _, .vList _ => .isFalse nofun
  | .vStr _, .vDict _ => .isFalse nofun
  | .vList _, .vNone => .isFalse nofun
  | .vList _, .vBool _ => .isFalse nofun
  | .vList _, .vNum _ => .isFalse nofun
  | .vList _, .vStr _ => .isFalse nofun
  | .vList _, .vDict _ => .isFalse nofun
  | .vDict _, .vNone => .isFalse nofun
  | .vDict _, .vBool _ => .isFalse nofun
  | .vDict _, .vNum _ => .isFalse nofun
  | .vDict _, .vStr _ => .isFalse nofun
  | .vDict _, .vList _ => .isFalse nofun

def Val.decEqList : (a b : List Val) → Decidable (a = b)
  | [], [] => .isTrue rfl
  | [], _ :: _ => .isFalse nofun
  | _ :: _, [] => .isFalse nofun
  | x :: xs, y :: ys =>
    have : Decidable (x = y) := Val.decEq x y
    have : Decidable (xs = ys) := Val.decEqList xs ys
    decidable_of_iff (x = y ∧ xs = ys) (by simp)

def Val.decEqDict : (a b : List (String × Val)) → Decidable (a = b)
  | [], [] => .isTrue rfl
  | [], _ :: _ => .isFalse nofun
  | _ :: _, [] => .isFalse nofun
  | (k, v) :: xs, (k₂, v₂) :: ys =>
    have : Decidable (v = v₂) := Val.decEq v v₂
    have : Decidable (xs = ys) := Val.decEqDict xs ys
    decidable_of_iff (k = k₂ ∧ v = v₂ ∧ xs = ys) (by simp [and_assoc])
end

instance : DecidableEq Val := Val.decEq

/-- Python truthiness (`bool(v)`): `None`, `False`, `0`, `""`, `[]` and
`\x7b\x7d` are falsy, everything else truthy. -/
def pyTruthy : Val → Bool
  | .vNone => false
  | .vBool b => b
  | .vNum n => n != 0
  | .vStr s => !s.isEmpty
  | .vList l => !l.isEmpty
  | .vDict d => !d.isEmpty

/-- Python `a or b`: `a` when truthy, else `b`. -/
def pyOr (a b : Val) : Val := if pyTruthy a then a else b

/-- First binding of a key in an association-list dict (we model JSON
objects, whose keys are unique, so first-match lookup is adequate). -/
def dlookup : List (String × Val) → String → Option Val
  | [], _ => Option.none
  | (k, v) :: t, key => if k = key then some v else dlookup t key

/-- Python `d.get(k)` with default `None`; raises `AttributeError` when the
receiver is not a dict (e.g. `"x".get(...)`). -/
def pyGet (v : Val) (k : String) : Except PyErr Val :=
  match v with
  | .vDict d => .ok ((dlookup d k).getD .vNone)
  | _ => .error .attributeError

/-- Python `d.get(k, default)`; raises `AttributeError` on a non-dict. -/
def pyGetD (v : Val) (k : String) (dflt : Val) : Except PyErr Val :=
  match v with
  | .vDict d => .ok ((dlookup d k).getD dflt)
  | _ => .error .attributeError

/-- Python `v[0]`: first element of a list, first character of a string;
`IndexError` when empty, `KeyError` for a dict without key `0`, and
`TypeError` for non-subscriptable values. -/
def pyIndex0 : Val → Except PyErr Val
  | .vList (x :: _) => .ok x
  | .vList [] => .error .indexError
  | .vStr s => if s.isEmpty then .error .indexError else .ok (.vStr (String.singleton (s.get 0)))
  | .vDict _ => .error .keyError
  | _ => .error .typeError

/-- Python `for x in v`: a list yields its elements, a string its
characters, a dict its keys; other values raise `TypeError`. -/
def pyIter : Val → Except PyErr (List Val)
  | .vList l => .ok l
  | .vStr s => .ok (s.toList.map (fun c => .vStr (String.singleton c)))
  | .vDict d => .ok (d.map (fun p => .vStr p.1))
  | _ => .error .typeError

mutual
/-- Approximation of Python `repr` for containers (exact text is never
inspected by any claim; only totality matters). -/
def pyRepr : Val → String
  | .vNone => "None"
  | .vBool b => if b then "True" else "False"
  | .vNum n => toString n
  | .vStr s => "\x27" ++ s ++ "\x27"
  | .vList l => "[" ++ pyReprList l ++ "]"
  | .vDict d => "\x7b" ++ pyReprDict d ++ "\x7d"

def pyReprList : List Val → String
  | [] => ""
  | [v] => pyRepr v
  | v :: t => pyRepr v ++ ", " ++ pyReprList t

def pyReprDict : List (String × Val) → String
  | [] => ""
  | [(k, v)] => "\x27" ++ k ++ "\x27: " ++ pyRepr v
  | (k, v) :: t => "\x27" ++ k ++ "\x27: " ++ pyRepr v ++ ", " ++ pyReprDict t
end

/-- Python `str(v)`: identity on strings, `repr`-style on containers. -/
def pyStr : Val → String
  | .vStr s => s
  | v => pyRepr v

/-- Abstraction of the third-party date machinery (`dateutil.parser.parse`
and `date.strftime`).  Dates are modelled as integers with the calendar
order; `parse` returns `none` for unparsable strings (the code catches
`ValueError`, `TypeError` and `OverflowError`). -/
structure DateLib where
  parse : String → Option Int
  render : Int → String

/-- `parse_fecha_json` (consulta_api.py:149-155): falsy values give `None`;
`dateutil` accepts only strings here (anything else raises `TypeError`,
which the function catches and turns into `None`). -/
def parse_fecha_json (dl : DateLib) (valor : Val) : Option Int :=
  if pyTruthy valor then
    match valor with
    | .vStr s => dl.parse s
    | _ => Option.none
  else Option.none

/-- `formatear_fecha_salida` (consulta_api.py:158-160). -/
def formatear_fecha_salida (dl : DateLib) (valor : Val) : String :=
  match parse_fecha_json dl valor with
  | some d => dl.render d
  | Option.none => ""

/-- `safe_get` (consulta_api.py:163-170): walk a key path, returning `""`
as soon as a step is not a dict or the key is absent; a final `None`
becomes `""`.  Total: it never raises. -/
def safe_get : Val → List String → Val
  | actual, [] => match actual with
    | .vNone => .vStr ""
    | v => v
  | actual, key :: keys => match actual with
    | .vDict d => match dlookup d key with
      | some v => safe_get v keys
      | Option.none => .vStr ""
    | _ => .vStr ""

/-- Field names tried, in order, by `normalizar_texto` on a dict. -/
def camposTexto : List String :=
  ["Nombre", "Descripcion", "DescripcionLarga", "DescripcionCorta", "Glosa", "Valor", "Codigo"]

/-- The dict arm of `normalizar_texto`: first truthy field, rendered with
`str`. -/
def buscar_campo_texto (d : List (String × Val)) : List String → String
  | [] => ""
  | c :: cs => match dlookup d c with
    | some v => if pyTruthy v then pyStr v else buscar_campo_texto d cs
    | Option.none => buscar_campo_texto d cs

mutual
/-- `normalizar_texto` (consulta_api.py:173-188): first truthy element of a
list, first truthy name-like field of a dict, `""` for `None`, otherwise
`str`.  Total: it never raises. -/
def normalizar_texto : Val → String
  | .vList l => normalizar_texto_lista l
  | .vDict d => buscar_campo_texto d camposTexto
  | .vNone => ""
  | .vBool b => pyStr (.vBool b)
  | .vNum n => pyStr (.vNum n)
  | .vStr s => pyStr (.vStr s)

def normalizar_texto_lista : List Val → String
  | [] => ""
  | v :: t =>
    let r := normalizar_texto v
    if r.isEmpty then normalizar_texto_lista t else r
end

/-- Field names tried, in order, by `normalizar_moneda` on a dict. -/
def camposMoneda : List String :=
  ["Nombre", "Descripcion", "DescripcionMoneda", "Codigo", "CodigoMoneda", "Moneda"]

/-- The dict arm of `normalizar_moneda`: first truthy field, returned as a
raw value (not stringified). -/
def buscar_campo_val (d : List (String × Val)) : List String → Val
  | [] => .vStr ""
  | c :: cs => match dlookup d c with
    | some v => if pyTruthy v then v else buscar_campo_val d cs
    | Option.none => buscar_campo_val d cs

mutual
/-- `normalizar_moneda` (consulta_api.py:191-204): first truthy result over
a list, first truthy currency-like field of a dict, else `valor or ""`.
Total: it never raises. -/
def normalizar_moneda : Val → Val
  | .vList l => normalizar_moneda_lista l
  | .vDict d => buscar_campo_val d camposMoneda
  | .vNone => pyOr .vNone (.vStr "")
  | .vBool b => pyOr (.vBool b) (.vStr "")
  | .vNum n => pyOr (.vNum n) (.vStr "")
  | .vStr s => pyOr (.vStr s) (.vStr "")

def normalizar_moneda_lista : List Val → Val
  | [] => .vStr ""
  | v :: t =>
    let r := normalizar_moneda v
    if pyTruthy r then r else normalizar_moneda_lista t
end

/-- `obtener_moneda` (consulta_api.py:207-213).  `primer_item.get` raises
`AttributeError` when the first line item is a truthy non-dict. -/
def obtener_moneda (oc primer_item : Val) : Except PyErr Val := do
  let m ← pyGet oc "Moneda"
  let moneda := normalizar_moneda m
  if pyTruthy moneda then .ok moneda
  else if pyTruthy primer_item then do
    let mi ← pyGet primer_item "Moneda"
    .ok (normalizar_moneda mi)
  else .ok (.vStr "")

/-- `obtener_fuente_financiamiento` (consulta_api.py:216-221). -/
def obtener_fuente_financiamiento (oc : Val) : Except PyErr String := do
  let a ← pyGet oc "FuenteFinanciamiento"
  let f₁ := normalizar_texto a
  if !f₁.isEmpty then .ok f₁
  else do
    let b ← pyGet oc "Financiamiento"
    let f₂ := normalizar_texto b
    if !f₂.isEmpty then .ok f₂
    else .ok (normalizar_texto (safe_get oc ["Comprador", "FuenteFinanciamiento"]))

/-- `obtener_rut_proveedor` (consulta_api.py:224-228); built only from
`safe_get` and `normalizar_texto`, hence total. -/
def obtener_rut_proveedor (oc : Val) : String :=
  let rut := normalizar_texto (safe_get oc ["Proveedor", "RutProveedor"])
  if !rut.isEmpty then rut
  else normalizar_texto (safe_get oc ["Proveedor", "RutSucursal"])

/-- `COLUMNAS` (consulta_api.py:66-88): the 21 output columns, in order. -/
def COLUMNAS : List String :=
  ["Código OC", "Nombre", "Código Estado", "Descripción", "Código Licitación",
   "Tipo", "Moneda", "Fecha Creación", "Fecha Envío", "Fecha Aceptación",
   "Total", "Total Neto", "Proveedor", "Rut Proveedor", "Unidad Compradora",
   "Nombre Organismo", "Contacto Comprador", "Fuente Financiamiento",
   "Codigo categoria", "Categoría", "Codigo producto"]

/-- A Row: the insertion-ordered dict built by `construir_fila_oc`. -/
abbrev Fila := List (String × Val)

/-- Python `dict.setdefault(k, v)` (insertion effect only): appends the
binding when the key is absent, otherwise leaves the dict unchanged. -/
def setdefault (d : Fila) (k : String) (v : Val) : Fila :=
  if d.any (fun p => p.1 == k) then d else d ++ [(k, v)]

/-- The `for columna in COLUMNAS: fila.setdefault(columna, "")` loop
(consulta_api.py:395-396). -/
def aplicar_setdefault (d : Fila) : Fila :=
  COLUMNAS.foldl (fun acc c => setdefault acc c (.vStr "")) d

/-- Lines 363-370 of `construir_fila_oc`: normalize `oc.get("Items")` to a
list and take its first element (`\x7b\x7d` when the list is falsy).
`listado_items[0]` raises `TypeError` on a truthy non-subscriptable value
(e.g. `Items = 5`). -/
def primer_item_de (itemsRaw : Val) : Except PyErr Val := do
  let items := pyOr itemsRaw (.vDict [])
  let listado₀ ←
    match items with
    | .vDict d => do
      let a := (dlookup d "Listado").getD .vNone
      let b := (dlookup d "Item").getD .vNone
      .ok (pyOr (pyOr a b) (.vList []))
    | v => .ok (pyOr v (.vList []))
  let listado :=
    match listado₀ with
    | .vDict d => .vList [.vDict d]
    | v => v
  if pyTruthy listado then pyIndex0 listado else .ok (.vDict [])

/-- The 21 field values of a Row, in the order the dict literal of
`construir_fila_oc` (consulta_api.py:372-394) evaluates them. -/
structure FilaVals where
  codigoOC : Val
  nombre : Val
  codigoEstado : Val
  descripcion : Val
  codigoLicitacion : Val
  tipo : Val
  moneda : Val
  fechaCreacion : String
  fechaEnvio : String
  fechaAceptacion : String
  total : Val
  totalNeto : Val
  proveedor : Val
  rutProveedor : String
  unidadCompradora : Val
  nombreOrganismo : Val
  contactoComprador : Val
  fuenteFinanciamiento : String
  codigoCategoria : Val
  categoria : Val
  codigoProducto : Val

/-- Field resolution of `construir_fila_oc` (consulta_api.py:361-394),
computing the values of the dict literal in source order.  `fechas` and
`primer_item` are computed first (lines 362-370); `fechas.get(...)` raises
`AttributeError` when `Fechas` is a truthy non-dict. -/
def construir_valores (dl : DateLib) (oc : Val) : Except PyErr FilaVals := do
  let fechasRaw ← pyGet oc "Fechas"
  let fechas := pyOr fechasRaw (.vDict [])
  let itemsRaw ← pyGet oc "Items"
  let primer_item ← primer_item_de itemsRaw
  let codigoOC ← pyGetD oc "Codigo" (.vStr "")
  let nombre ← pyGetD oc "Nombre" (.vStr "")
  let codigoEstado ← pyGetD oc "CodigoEstado" (.vStr "")
  let descripcion ← pyGetD oc "Descripcion" (.vStr "")
  let codigoLicitacion ← pyGetD oc "CodigoLicitacion" (.vStr "")
  let tipo ← pyGetD oc "Tipo" (.vStr "")
  let moneda ← obtener_moneda oc primer_item
  let fCre ← pyGet fechas "FechaCreacion"
  let fEnv ← pyGet fechas "FechaEnvio"
  let fAce ← pyGet fechas "FechaAceptacion"
  let total ← pyGetD oc "Total" (.vStr "")
  let totalNeto ← pyGetD oc "TotalNeto" (.vStr "")
  let fuente ← obtener_fuente_financiamiento oc
  let codigoCategoria ←
    if pyTruthy primer_item then pyGetD primer_item "CodigoCategoria" (.vStr "")
    else .ok (.vStr "")
  let categoria ←
    if pyTruthy primer_item then pyGetD primer_item "Categoria" (.vStr "")
    else .ok (.vStr "")
  let codigoProducto ←
    if pyTruthy primer_item then pyGetD primer_item "CodigoProducto" (.vStr "")
    else .ok (.vStr "")
  .ok
    { codigoOC := codigoOC
      nombre := nombre
      codigoEstado := codigoEstado
      descripcion := descripcion
      codigoLicitacion := codigoLicitacion
      tipo := tipo
      moneda := moneda
      fechaCreacion := formatear_fecha_salida dl fCre
      fechaEnvio := formatear_fecha_salida dl fEnv
      fechaAceptacion := formatear_fecha_salida dl fAce
      total := total
      totalNeto := totalNeto
      proveedor := safe_get oc ["Proveedor", "Nombre"]
      rutProveedor := obtener_rut_proveedor oc
      unidadCompradora := safe_get oc ["Comprador", "NombreUnidad"]
      nombreOrganismo := safe_get oc ["Comprador", "NombreOrganismo"]
      contactoComprador := safe_get oc ["Comprador", "Nombre"]
      fuenteFinanciamiento := fuente
      codigoCategoria := codigoCategoria
      categoria := categoria
      codigoProducto := codigoProducto }

/-- The dict literal of `construir_fila_oc` (consulta_api.py:372-394):
keys in source order, paired with the resolved values. -/
def fila_de_valores (v : FilaVals) : Fila :=
  [("Código OC", v.codigoOC), ("Nombre", v.nombre),
   ("Código Estado", v.codigoEstado), ("Descripción", v.descripcion),
   ("Código Licitación", v.codigoLicitacion), ("Tipo", v.tipo),
   ("Moneda", v.moneda), ("Fecha Creación", .vStr v.fechaCreacion),
   ("Fecha Envío", .vStr v.fechaEnvio), ("Fecha Aceptación", .vStr v.fechaAceptacion),
   ("Total", v.total), ("Total Neto", v.totalNeto),
   ("Proveedor", v.proveedor), ("Rut Proveedor", .vStr v.rutProveedor),
   ("Unidad Compradora", v.unidadCompradora), ("Nombre Organismo", v.nombreOrganismo),
   ("Contacto Comprador", v.contactoComprador), ("Fuente Financiamiento", .vStr v.fuenteFinanciamiento),
   ("Codigo categoria", v.codigoCategoria), ("Categoría", v.categoria),
   ("Codigo producto", v.codigoProducto)]

/-- `construir_fila_oc` (consulta_api.py:361-397): resolve the 21 fields,
build the dict literal, then run the `setdefault` completion loop. -/
def construir_fila_oc (dl : DateLib) (oc : Val) : Except PyErr Fila := do
  let vs ← construir_valores dl oc
  .ok (aplicar_setdefault (fila_de_valores vs))

/-! ## Retry policy (`request_with_retries`, consulta_api.py:249-270) -/

/-- Outcome of one HTTP attempt: a status code with a body, or a
transport-level `requests.RequestException`. -/
inductive HttpResult where
  | status (code : Nat) (body : Val) : HttpResult
  | transportExc : HttpResult
deriving DecidableEq

/-- The retryable classification of lines 257 and 264: HTTP 429, any 5xx,
or a transport exception. -/
def esReintentable : HttpResult → Bool
  | .status code _ => code == 429 || (500 ≤ code && code < 600)
  | .transportExc => true

/-- The `while attempt < retries` loop.  `fuel` is `retries - attempt`;
the second component counts requests actually issued. -/
def request_with_retries_aux (outcomes : Nat → HttpResult) : Nat → Nat → Option Val × Nat
  | 0, attempt => (Option.none, attempt)
  | fuel + 1, attempt =>
    match outcomes attempt with
    | .status code body =>
      if code = 200 then (some body, attempt + 1)
      else if code = 429 ∨ (500 ≤ code ∧ code < 600) then
        request_with_retries_aux outcomes fuel (attempt + 1)
      else (Option.none, attempt + 1)
    | .transportExc => request_with_retries_aux outcomes fuel (attempt + 1)

/-- `request_with_retries` (consulta_api.py:249-270): `outcomes n` is the
result of the `n`-th attempt; `retries` is the Python `int` argument (the
loop `while attempt < retries` runs zero times when `retries ≤ 0`).
Returns the body of the first 200 response (`None` on a terminal status or
on exhaustion) together with the number of requests issued. -/
def request_with_retries (outcomes : Nat → HttpResult) (retries : Int) : Option Val × Nat :=
  request_with_retries_aux outcomes retries.toNat 0

/-! ## Discovery phase (`listar_oc_por_rango`, consulta_api.py:273-358) -/

/-- The observable result of one listing request, after
`request_with_retries` and `response.json()`: the request failed
(`response is None`), the body was not JSON, or a decoded payload. -/
inductive CellResult where
  | fail : CellResult
  | badJson : CellResult
  | payload (p : Val) : CellResult

/-- `registro.get("Codigo") or registro.get("codigo")` (lines 299/325);
raises `AttributeError` on a non-dict registro. -/
def extraer_codigo (registro : Val) : Except PyErr Val := do
  let a ← pyGet registro "Codigo"
  if pyTruthy a then .ok a
  else pyGet registro "codigo"

/-- Extract the candidate code of every registro, in order; the first
failing registro aborts the whole cell (the Python loop raises there). -/
def extraer_todos : List Val → Except PyErr (List Val)
  | [] => .ok []
  | r :: t => do
    let c ← extraer_codigo r
    let cs ← extraer_todos t
    .ok (c :: cs)

/-- `listado = payload.get("Listado") or []` followed by iteration
(lines 297-298 / 323-324). -/
def lectura_listado (p : Val) : Except PyErr (List Val) := do
  let lraw ← pyGet p "Listado"
  pyIter (pyOr lraw (.vList []))

/-- Discovery dedup state: `(codigos, vistos)` of lines 274-275. -/
abbrev EstadoDedup := List Val × List Val

/-- `if codigo and codigo not in vistos: vistos.add(...); codigos.append(...)`
(lines 300-302, the sequential loop body). -/
def agregar_si_nuevo (st : EstadoDedup) (c : Val) : EstadoDedup :=
  if pyTruthy c && !st.2.contains c then (st.1 ++ [c], st.2 ++ [c]) else st

/-- The concurrent merge step (lines 346-349): candidates were already
filtered for truthiness by the worker, only the `not in vistos` check
remains. -/
def agregar_unico (st : EstadoDedup) (c : Val) : EstadoDedup :=
  if st.2.contains c then st else (st.1 ++ [c], st.2 ++ [c])

/-- One iteration of the sequential discovery loop (lines 287-305) on the
dedup state.  The boolean records whether `time.sleep(args.sleep)` at line
305 was reached: the `continue` statements at lines 291 and 296 skip it.
The Python loop interleaves extraction and insertion; we extract the whole
listado first and then insert, which agrees with the source whenever the
iteration does not raise (and on a raise the sequential state is discarded
with the whole run, so the difference is unobservable). -/
def paso_listar_seq (st : EstadoDedup) (c : CellResult) :
    Except PyErr (EstadoDedup × Bool) :=
  match c with
  | .fail => .ok (st, false)
  | .badJson => .ok (st, false)
  | .payload p => do
    let regs ← lectura_listado p
    let cs ← extraer_todos regs
    .ok (cs.foldl agregar_si_nuevo st, true)

/-- The sequential discovery loop over the cells, threading the dedup
state; an uncaught exception aborts the phase. -/
def listar_seq_go : List CellResult → EstadoDedup → Except PyErr EstadoDedup
  | [], st => .ok st
  | c :: t, st => do
    let r ← paso_listar_seq st c
    listar_seq_go t r.1

/-- The sequential discovery phase (lines 280-308): process the per-cell
results in grid order and return `codigos`. -/
def listar_seq (cells : List CellResult) : Except PyErr (List Val) := do
  let st ← listar_seq_go cells ([], [])
  .ok st.1

/-- The identifiers a cell contributes (its Listing Result): the truthy
extracted codes, or an error when extraction raises. -/
def celda_codigos (c : CellResult) : Except PyErr (List Val) :=
  match c with
  | .fail => .ok []
  | .badJson => .ok []
  | .payload p => do
    let regs ← lectura_listado p
    let cs ← extraer_todos regs
    .ok (cs.filter pyTruthy)

/-- The concurrent worker `procesar` (lines 312-329): collects the truthy
codes of its cell; an exception inside the worker is caught at
`future.result()` (lines 341-343) and the cell contributes nothing.  The
boolean records whether `time.sleep(args.sleep)` at line 328 ran (an
exception in the extraction loop skips it). -/
def procesar_celda (c : CellResult) : List Val × Bool :=
  match c with
  | .fail => ([], true)
  | .badJson => ([], true)
  | .payload p =>
    match celda_codigos (.payload p) with
    | .ok cs => (cs, true)
    | .error _ => ([], false)

/-- The concurrent discovery phase: per-cell results merged under the lock
in completion order (lines 331-358). -/
def listar_conc (cells : List CellResult) : List Val :=
  (cells.foldl (fun st c => (procesar_celda c).1.foldl agregar_unico st)
    (([], []) : EstadoDedup)).1

/-! ## Fetch phase and batch sink
(`descargar_detalle_y_escribir`, consulta_api.py:400-510) -/

/-- The observable result of one detail request has the same three shapes
as a listing request: failed request, non-JSON body, or decoded payload. -/
abbrev DetalleResp := CellResult

/-- The date-window filter plus row projection applied to the first listed
record (lines 442-445 / 478-481): `continue`/`return None` when the
creation date is missing, unparsable, before `desde` or after `hasta`;
otherwise build the Row. -/
def procesarOC (dl : DateLib) (oc : Val) (desde hasta : Int) :
    Except PyErr (Option Fila) :=
  match parse_fecha_json dl (safe_get oc ["Fechas", "FechaCreacion"]) with
  | Option.none => .ok Option.none
  | some f =>
    if f < desde ∨ hasta < f then .ok Option.none
    else do
      let fila ← construir_fila_oc dl oc
      .ok (some fila)

/-- One iteration of the sequential fetch loop (lines 426-452) for one
code.  The boolean records whether the pacing `time.sleep(pausa)` at line
452 was reached: the `continue` statements at lines 430, 435, 440 and 444
skip it, and an uncaught exception also skips it. -/
def paso_fetch (dl : DateLib) (r : DetalleResp) (desde hasta : Int) :
    Except PyErr (Option Fila × Bool) :=
  match r with
  | .fail => .ok (Option.none, false)
  | .badJson => .ok (Option.none, false)
  | .payload p => do
    let lraw ← pyGet p "Listado"
    let listado₀ := pyOr lraw (.vList [])
    let listado :=
      match listado₀ with
      | .vDict d => .vList [.vDict d]
      | v => v
    if pyTruthy listado then do
      let oc ← pyIndex0 listado
      match ← procesarOC dl oc desde hasta with
      | Option.none => .ok (Option.none, false)
      | some fila => .ok (some fila, true)
    else .ok (Option.none, false)

/-- The concurrent fetch worker `procesar` (lines 459-483): any exception
is caught at `future.result()` (lines 490-494) and yields no row; the
pacing sleep sits in a `finally` block, so it always runs. -/
def procesar_codigo_conc (dl : DateLib) (r : DetalleResp) (desde hasta : Int) :
    Option Fila × Bool :=
  match paso_fetch dl r desde hasta with
  | .ok (o, _) => (o, true)
  | .error _ => (Option.none, true)

/-- State of the CSV sink: the pending batch, the row counter, the file
(`Option.none` while `consulta_api.csv` does not exist; data rows only,
the header is tracked by `escribir_header`), and a ghost counter of flush
operations that actually wrote. -/
structure SinkState where
  escribir_header : Bool
  filas_batch : List Fila
  escritos : Nat
  archivo : Option (List Fila)
  flushes : Nat

/-- `if csv_path.exists(): csv_path.unlink()` (lines 406-407). -/
def unlink_si_existe : Option (List Fila) → Option (List Fila)
  | some _ => Option.none
  | Option.none => Option.none

/-- Sink state at the start of a run, given the pre-existing file. -/
def estado_inicial (pre : Option (List Fila)) : SinkState :=
  { escribir_header := true, filas_batch := [], escritos := 0,
    archivo := unlink_si_existe pre, flushes := 0 }

/-- `flush` (consulta_api.py:409-420): a no-op on an empty batch,
otherwise append the batch to the file (`open("a")` creates it when
missing), bump the counter and clear the batch. -/
def flush (s : SinkState) : SinkState :=
  if s.filas_batch.isEmpty then s
  else
    { escribir_header := false,
      filas_batch := [],
      escritos := s.escritos + s.filas_batch.length,
      archivo := some ((s.archivo.getD []) ++ s.filas_batch),
      flushes := s.flushes + 1 }

/-- Accepting one row (lines 446-448 / 496-498): append to the batch and
flush once `len(filas_batch) >= args.batch_size`. -/
def aceptar (B : Nat) (s : SinkState) (fila : Fila) : SinkState :=
  let s' := { s with filas_batch := s.filas_batch ++ [fila] }
  if B ≤ s'.filas_batch.length then flush s' else s'

/-- The sink-level view of a run: initialize (replacing any pre-existing
file), accept each row in order, then the unconditional final `flush()`
of line 508. -/
def procesar_lote (pre : Option (List Fila)) (B : Nat) (rows : List Fila) : SinkState :=
  flush (rows.foldl (aceptar B) (estado_inicial pre))

/-- The data rows of the output table (`[]` when the file is absent). -/
def filas_en : Option (List Fila) → List Fila
  | some l => l
  | Option.none => []

/-- The sequential fetch loop over the codes (lines 422-454 and the final
flush at line 508).  On an uncaught exception the loop aborts: the final
flush does not run and the boolean result is `true`. -/
def descargar_seq_go (dl : DateLib) (detalle : Val → DetalleResp)
    (desde hasta : Int) (B : Nat) : List Val → SinkState → SinkState × Bool
  | [], s => (flush s, false)
  | c :: t, s =>
    match paso_fetch dl (detalle c) desde hasta with
    | .error _ => (s, true)
    | .ok (Option.none, _) => descargar_seq_go dl detalle desde hasta B t s
    | .ok (some fila, _) => descargar_seq_go dl detalle desde hasta B t (aceptar B s fila)

/-- `descargar_detalle_y_escribir` in sequential mode: the resulting file
and whether the run aborted with an exception. -/
def descargar_seq (dl : DateLib) (detalle : Val → DetalleResp)
    (desde hasta : Int) (B : Nat) (pre : Option (List Fila)) (codigos : List Val) :
    Option (List Fila) × Bool :=
  let r := descargar_seq_go dl detalle desde hasta B codigos (estado_inicial pre)
  (r.1.archivo, r.2)

/-- `descargar_detalle_y_escribir` in concurrent mode: per-code results
merged in completion order (lines 486-502), with the worker exceptions
caught, then the final flush.  `if fila:` at line 495 tests Python
truthiness: `None` and the empty dict are skipped. -/
def descargar_conc (dl : DateLib) (detalle : Val → DetalleResp)
    (desde hasta : Int) (B : Nat) (pre : Option (List Fila)) (codigos : List Val) :
    Option (List Fila) :=
  (flush (codigos.foldl (fun s c =>
    match procesar_codigo_conc dl (detalle c) desde hasta with
    | (some fila, _) => if fila.isEmpty then s else aceptar B s fila
    | (Option.none, _) => s) (estado_inicial pre))).archivo

/-- The row a code contributes in a run where its processing does not
raise (used to compare worker counts). -/
def fila_aceptada (dl : DateLib) (detalle : Val → DetalleResp)
    (desde hasta : Int) (c : Val) : Option Fila :=
  match paso_fetch dl (detalle c) desde hasta with
  | .ok (o, _) => o
  | .error _ => Option.none

/-- The row a code contributes to the concurrent merge loop: the worker
result when truthy (`if fila:` at line 495), nothing otherwise. -/
def fila_colectada (dl : DateLib) (detalle : Val → DetalleResp)
    (desde hasta : Int) (c : Val) : Option Fila :=
  match procesar_codigo_conc dl (detalle c) desde hasta with
  | (some fila, _) => if fila.isEmpty then Option.none else some fila
  | (Option.none, _) => Option.none

/-! ## Concrete instances used by witnesses and counterexamples -/

/-- A concrete date library: the strings "0", "1", "2" parse to those day
ordinals, everything else is unparsable. -/
def dl0 : DateLib :=
  { parse := fun s =>
      if s = "0" then some 0 else if s = "1" then some 1
      else if s = "2" then some 2 else Option.none,
    render := fun n => toString n }

/-- A listing registro carrying code "A" under the capitalized spelling. -/
def regA : Val := .vDict [("Codigo", .vStr "A")]

/-- A listing registro carrying code "A" under the lowercase spelling. -/
def regAmin : Val := .vDict [("codigo", .vStr "A")]

/-- A listing registro carrying code "B". -/
def regB : Val := .vDict [("Codigo", .vStr "B")]

/-- A listing payload returning code "A" three times across both field
spellings. -/
def payloadC1 : Val := .vDict [("Listado", .vList [regA, regAmin, regA])]

/-- A one-cell grid whose single listing repeats the identifier "A". -/
def celdasC1 : List CellResult := [.payload payloadC1]

/-- The entries of a detail record created on day 0 that projects
cleanly. -/
def ocBuenoDict : List (String × Val) :=
  [("Fechas", .vDict [("FechaCreacion", .vStr "0")]), ("Codigo", .vStr "A")]

/-- A detail record created on day 0 that projects cleanly. -/
def ocBueno : Val := .vDict ocBuenoDict

/-- A detail record created on day 0 whose `Items` field is the scalar
`5`: `listado_items[0]` raises `TypeError` during row projection. -/
def ocItemsMalos : Val :=
  .vDict [("Fechas", .vDict [("FechaCreacion", .vStr "0")]), ("Items", .vNum 5)]

/-- A detail record whose `Fechas` field is a truthy non-dict:
`fechas.get("FechaCreacion")` raises `AttributeError`. -/
def ocFechasMalas : Val := .vDict [("Fechas", .vStr "x")]

/-- Wrap a record in the detail response envelope. -/
def plOf (oc : Val) : Val := .vDict [("Listado", .vList [oc])]

/-- The Row projected from `ocBueno`. -/
def filaBuena : Fila := ((construir_fila_oc dl0 ocBueno).toOption).getD []

/-- A one-cell grid listing the codes "A" and "B". -/
def celdas9 : List CellResult := [.payload (.vDict [("Listado", .vList [regA, regB])])]

/-- Canned detail responses: "A" resolves to the clean record, "B" to the
record whose projection raises. -/
def detalle9 : Val → DetalleResp := fun c =>
  if c = .vStr "A" then .payload (plOf ocBueno)
  else if c = .vStr "B" then .payload (plOf ocItemsMalos)
  else .fail

/-- Canned detail responses where only "A" resolves. -/
def detalleBueno : Val → DetalleResp := fun c =>
  if c = .vStr "A" then .payload (plOf ocBueno) else .fail

/-- A one-cell grid listing only the code "A". -/
def celdasC9w : List CellResult := [.payload (.vDict [("Listado", .vList [regA])])]

/-- A sample row for sink-level witnesses. -/
def filaEjemplo : Fila := [("Código OC", .vStr "X")]

/-! ## Basic lemmas -/

theorem except_bind_ok {α β ε : Type} (a : α) (f : α → Except ε β) :
    (Except.ok a : Except ε α) >>= f = f a := rfl

theorem except_bind_error {α β ε : Type} (e : ε) (f : α → Except ε β) :
    (Except.error e : Except ε α) >>= f = .error e := rfl

theorem contains_iff_mem (l : List Val) (a : Val) : l.contains a = true ↔ a ∈ l := by
  simp [List.contains, List.elem_iff]

/-! ## Retry policy: claims C4 and C10 -/

theorem rwr_aux_reintentable (outcomes : Nat → HttpResult)
    (hall : ∀ n, esReintentable (outcomes n) = true) :
    ∀ fuel attempt, request_with_retries_aux outcomes fuel attempt =
      (Option.none, attempt + fuel) := by
  intro fuel
  induction fuel with
  | zero => intro attempt; simp [request_with_retries_aux]
  | succ f ih =>
    intro attempt
    have h := hall attempt
    unfold request_with_retries_aux
    cases hr : outcomes attempt with
    | transportExc =>
      rw [ih]
      have : attempt + 1 + f = attempt + (f + 1) := by omega
      rw [this]
    | status code body =>
      rw [hr] at h
      simp only [esReintentable, Bool.or_eq_true, beq_iff_eq, Bool.and_eq_true,
        decide_eq_true_eq] at h
      have hcode : code = 429 ∨ (500 ≤ code ∧ code < 600) := h
      have h200 : ¬ code = 200 := by omega
      simp only [if_neg h200, if_pos hcode]
      rw [ih]
      have : attempt + 1 + f = attempt + (f + 1) := by omega
      rw [this]

/-- C4: whenever every attempt yields a retryable failure (HTTP 429/5xx,
in particular 503, or a transport exception), `request_with_retries`
issues exactly `retries` requests (for any non-negative `retries`) and
then gives up with `None`; the loop is a total function, so it always
terminates. -/
theorem c4_reintentos_agotados (outcomes : Nat → HttpResult) (retries : Int)
    (hr : 0 ≤ retries) (hall : ∀ n, esReintentable (outcomes n) = true) :
    request_with_retries outcomes retries = (Option.none, retries.toNat) ∧
      (retries.toNat : Int) = retries := by
  constructor
  · unfold request_with_retries
    rw [rwr_aux_reintentable outcomes hall]
    simp
  · exact Int.toNat_of_nonneg hr

theorem c4_witness :
    (0 : Int) ≤ 5 ∧
      request_with_retries (fun _ => .status 503 (.vStr "")) 5 = (Option.none, 5) := by
  refine ⟨by norm_num, ?_⟩
  have h := c4_reintentos_agotados (fun _ => .status 503 (.vStr "")) 5
    (by norm_num) (fun _ => rfl)
  simpa using h.1

/-- C10: with `retries ≤ 0` the loop guard `attempt < retries` fails at
once, so no request is issued and `None` is returned immediately: the
`retries` parameter counts total attempts. -/
theorem c10_reintentos_no_positivos (outcomes : Nat → HttpResult) (retries : Int)
    (h : retries ≤ 0) :
    request_with_retries outcomes retries = (Option.none, 0) := by
  unfold request_with_retries
  rw [Int.toNat_of_nonpos h]
  rfl

theorem c10_witness :
    (-3 : Int) ≤ 0 ∧
      request_with_retries (fun _ => .status 200 (.vStr "cuerpo")) (-3) = (Option.none, 0) :=
  ⟨by norm_num, c10_reintentos_no_positivos _ _ (by norm_num)⟩

/-! ## Batch sink lemmas: claims C3 and C6 -/

theorem flush_concat (s : SinkState) :
    filas_en (flush s).archivo = filas_en s.archivo ++ s.filas_batch ∧
      (flush s).filas_batch = [] := by
  unfold flush
  by_cases h : s.filas_batch.isEmpty
  · rw [if_pos h]
    rw [List.isEmpty_iff] at h
    simp [h]
  · rw [if_neg h]
    cases s.archivo <;> simp [filas_en]

theorem aceptar_concat (B : Nat) (s : SinkState) (f : Fila) :
    filas_en (aceptar B s f).archivo ++ (aceptar B s f).filas_batch =
      (filas_en s.archivo ++ s.filas_batch) ++ [f] := by
  unfold aceptar
  by_cases h : B ≤ s.filas_batch.length + 1
  · simp only [List.length_append, List.length_cons, List.length_nil]
    rw [if_pos (by simpa using h)]
    have hc := flush_concat { s with filas_batch := s.filas_batch ++ [f] }
    rw [hc.1, hc.2]
    simp
  · simp only [List.length_append, List.length_cons, List.length_nil]
    rw [if_neg (by simpa using h)]
    simp

theorem foldl_aceptar_concat (B : Nat) (rows : List Fila) :
    ∀ s : SinkState,
      filas_en ((rows.foldl (aceptar B) s).archivo) ++ (rows.foldl (aceptar B) s).filas_batch =
        (filas_en s.archivo ++ s.filas_batch) ++ rows := by
  induction rows with
  | nil => intro s; simp
  | cons f t ih =>
    intro s
    rw [List.foldl_cons, ih (aceptar B s f), aceptar_concat]
    simp

theorem aceptar_conteo (B : Nat) (hB : 1 ≤ B) (s : SinkState) (f : Fila) (n : Nat)
    (h1 : s.filas_batch.length = n % B) (h2 : s.flushes = n / B)
    (h3 : s.escritos = n - n % B) :
    (aceptar B s f).filas_batch.length = (n + 1) % B ∧
      (aceptar B s f).flushes = (n + 1) / B ∧
      (aceptar B s f).escritos = (n + 1) - (n + 1) % B := by
  have hlt : n % B < B := Nat.mod_lt _ (by omega)
  have hmodle : n % B ≤ n := Nat.mod_le _ _
  have hdecomp : n = B * (n / B) + n % B := (Nat.div_add_mod n B).symm
  unfold aceptar
  simp only [List.length_append, List.length_cons, List.length_nil, h1]
  by_cases hfull : B ≤ n % B + 1
  · have hfull' : n % B + 1 = B := by omega
    have hn1 : n + 1 = B * (n / B + 1) := by
      rw [Nat.mul_add, Nat.mul_one]
      omega
    rw [if_pos (by simpa using hfull)]
    unfold flush
    have hne : ¬ (s.filas_batch ++ [f]).isEmpty := by simp
    rw [if_neg hne]
    refine ⟨by simp [hn1, Nat.mul_mod_right], ?_, ?_⟩
    · simp only [hn1, h2]
      rw [Nat.mul_div_cancel_left _ (by omega : 0 < B)]
    · simp only [List.length_append, List.length_cons, List.length_nil, h1, h3]
      have : (n + 1) % B = 0 := by simp [hn1, Nat.mul_mod_right]
      omega
  · have e1 : (n % B + 1) + B * (n / B) = n + 1 := by omega
    have hsm : (n + 1) % B = n % B + 1 := by
      have hm := Nat.add_mul_mod_self_left (n % B + 1) B (n / B)
      rw [e1] at hm
      rw [hm, Nat.mod_eq_of_lt (by omega)]
    have hsd : (n + 1) / B = n / B := by
      have hd := Nat.add_mul_div_left (n % B + 1) (n / B) (by omega : 0 < B)
      rw [e1] at hd
      rw [hd, Nat.div_eq_of_lt (by omega)]
      omega
    rw [if_neg (by simpa using hfull)]
    refine ⟨by simpa [hsm] using h1, by simpa [hsd] using h2, ?_⟩
    simp only [hsm]
    omega

theorem foldl_aceptar_conteo (B : Nat) (hB : 1 ≤ B) (rows : List Fila) :
    ∀ (s : SinkState) (n : Nat),
      s.filas_batch.length = n % B → s.flushes = n / B → s.escritos = n - n % B →
      (rows.foldl (aceptar B) s).filas_batch.length = (n + rows.length) % B ∧
        (rows.foldl (aceptar B) s).flushes = (n + rows.length) / B ∧
        (rows.foldl (aceptar B) s).escritos =
          (n + rows.length) - (n + rows.length) % B := by
  induction rows with
  | nil => intro s n h1 h2 h3; simpa using ⟨h1, h2, h3⟩
  | cons f t ih =>
    intro s n h1 h2 h3
    have hstep := aceptar_conteo B hB s f n h1 h2 h3
    have := ih (aceptar B s f) (n + 1) hstep.1 hstep.2.1 hstep.2.2
    simpa [Nat.add_assoc, Nat.add_comm, Nat.add_left_comm] using this

theorem ceil_div_caracterizacion (M B : Nat) (hB : 1 ≤ B) :
    (M + B - 1) / B = M / B + (if M % B = 0 then 0 else 1) := by
  have hdecomp : M = B * (M / B) + M % B := (Nat.div_add_mod M B).symm
  have hlt : M % B < B := Nat.mod_lt _ (by omega)
  by_cases h : M % B = 0
  · rw [if_pos h]
    have hM : M = B * (M / B) := by omega
    have : M + B - 1 = (B - 1) + B * (M / B) := by omega
    rw [this, Nat.add_mul_div_left _ _ (by omega : 0 < B),
      Nat.div_eq_of_lt (by omega)]
    omega
  · rw [if_neg h]
    have : M + B - 1 = (M % B - 1) + B * (M / B + 1) := by
      rw [Nat.mul_add, Nat.mul_one]
      omega
    rw [this, Nat.add_mul_div_left _ _ (by omega : 0 < B),
      Nat.div_eq_of_lt (by omega)]
    omega

/-- C3: with batch size `B ≥ 1`, a run that accepts the rows `rows`
(`M = rows.length` of them) leaves an output table holding exactly those
`M` rows, performed `ceil(M/B) = (M+B-1)/B` writing flushes, counted `M`
written rows, and the pre-final-flush batch held exactly `M mod B` rows,
which the unconditional final `flush()` wrote out. -/
theorem c3_lotes_completos (pre : Option (List Fila)) (B : Nat) (rows : List Fila)
    (hB : 1 ≤ B) :
    filas_en (procesar_lote pre B rows).archivo = rows ∧
      (procesar_lote pre B rows).escritos = rows.length ∧
      (procesar_lote pre B rows).flushes = (rows.length + B - 1) / B ∧
      (procesar_lote pre B rows).filas_batch = [] ∧
      (rows.foldl (aceptar B) (estado_inicial pre)).filas_batch.length =
        rows.length % B := by
  have hini : (estado_inicial pre).archivo = Option.none := by
    cases pre <;> rfl
  have hcount := foldl_aceptar_conteo B hB rows (estado_inicial pre) 0
    (by simp [estado_inicial, Nat.zero_mod])
    (by simp [estado_inicial, Nat.zero_div])
    (by simp [estado_inicial, Nat.zero_mod])
  have hconcat := foldl_aceptar_concat B rows (estado_inicial pre)
  rw [hini] at hconcat
  simp only [filas_en, estado_inicial, List.nil_append] at hconcat
  set s₁ := rows.foldl (aceptar B) (estado_inicial pre) with hs₁
  have hbatch : s₁.filas_batch.length = rows.length % B := by
    simpa using hcount.1
  have hflu : s₁.flushes = rows.length / B := by simpa using hcount.2.1
  have hesc : s₁.escritos = rows.length - rows.length % B := by
    simpa using hcount.2.2
  have hfc := flush_concat s₁
  have hmodle : rows.length % B ≤ rows.length := Nat.mod_le _ _
  refine ⟨?_, ?_, ?_, hfc.2, hbatch⟩
  · show filas_en (flush s₁).archivo = rows
    rw [hfc.1]
    simpa using hconcat
  · show (flush s₁).escritos = rows.length
    unfold flush
    by_cases h : s₁.filas_batch.isEmpty
    · rw [if_pos h]
      rw [List.isEmpty_iff] at h
      rw [h] at hbatch
      simp only [List.length_nil] at hbatch
      omega
    · rw [if_neg h]
      show s₁.escritos + s₁.filas_batch.length = rows.length
      rw [hesc, hbatch]
      omega
  · show (flush s₁).flushes = (rows.length + B - 1) / B
    rw [ceil_div_caracterizacion _ _ hB]
    unfold flush
    by_cases h : s₁.filas_batch.isEmpty
    · rw [if_pos h]
      rw [List.isEmpty_iff] at h
      rw [h] at hbatch
      simp only [List.length_nil] at hbatch
      rw [if_pos hbatch.symm]
      omega
    · rw [if_neg h]
      have hne : s₁.filas_batch.length ≠ 0 := by
        intro h0
        exact h (by simpa [List.isEmpty_iff, List.length_eq_zero] using h0)
      rw [hbatch] at hne
      rw [if_neg hne]
      show s₁.flushes + 1 = rows.length / B + 1
      rw [hflu]

theorem c3_witness :
    1 ≤ 2 ∧
      filas_en (procesar_lote Option.none 2 [filaEjemplo, filaEjemplo, filaEjemplo]).archivo =
        [filaEjemplo, filaEjemplo, filaEjemplo] ∧
      (procesar_lote Option.none 2 [filaEjemplo, filaEjemplo, filaEjemplo]).flushes = 2 := by
  have h := c3_lotes_completos Option.none 2 [filaEjemplo, filaEjemplo, filaEjemplo]
    (by norm_num)
  exact ⟨by norm_num, h.1, by simpa using h.2.2.1⟩

/-- C6 counterexample: in a completed run that accepts zero rows, no
output file exists at the output path — every flush returned early on the
empty batch, so `open("a")` never created the file — even though a
pre-existing file was there (and was deleted).  The claim that "an output
table exists at the output path (possibly empty of data rows)" is
therefore false for empty runs. -/
theorem c6_counterexample :
    (procesar_lote (some [filaEjemplo]) 1000 []).archivo = Option.none := rfl

/-- C6 (amended): any pre-existing file at the output path is removed
before the rows of the run are written — the final state of the run is independent
of it — but an output table exists at the end of a completed run if and
only if at least one row was accepted. -/
theorem c6_archivo_de_salida (pre : Option (List Fila)) (B : Nat) (rows : List Fila) :
    procesar_lote pre B rows = procesar_lote Option.none B rows ∧
      ((procesar_lote pre B rows).archivo = Option.none ↔ rows = []) := by
  have hini : estado_inicial pre = estado_inicial Option.none := by
    cases pre <;> rfl
  constructor
  · unfold procesar_lote
    rw [hini]
  · constructor
    · intro h
      have hconcat := foldl_aceptar_concat B rows (estado_inicial pre)
      have hfc := flush_concat (rows.foldl (aceptar B) (estado_inicial pre))
      have hini' : (estado_inicial pre).archivo = Option.none := by
        cases pre <;> rfl
      rw [hini'] at hconcat
      simp only [filas_en, estado_inicial, List.nil_append] at hconcat
      have : filas_en (procesar_lote pre B rows).archivo = rows := by
        unfold procesar_lote
        rw [hfc.1]
        simpa using hconcat
      rw [h] at this
      simpa [filas_en] using this.symm
    · intro h
      subst h
      unfold procesar_lote
      simp only [List.foldl_nil]
      show (flush (estado_inicial pre)).archivo = Option.none
      unfold flush estado_inicial
      cases pre <;> rfl

/-! ## Row projection lemmas: claims C5, C8, C2 -/

theorem keys_fila_de_valores (vs : FilaVals) :
    (fila_de_valores vs).map Prod.fst = COLUMNAS := rfl

theorem setdefault_noop (d : Fila) (c : String) (v : Val)
    (h : c ∈ d.map Prod.fst) : setdefault d c v = d := by
  unfold setdefault
  rw [if_pos]
  rw [List.any_eq_true]
  obtain ⟨p, hp, hpc⟩ := List.mem_map.mp h
  exact ⟨p, hp, by simp [hpc]⟩

theorem foldl_setdefault_noop (cols : List String) :
    ∀ d : Fila, (∀ c ∈ cols, c ∈ d.map Prod.fst) →
      cols.foldl (fun acc c => setdefault acc c (.vStr "")) d = d := by
  induction cols with
  | nil => intro d _; rfl
  | cons c t ih =>
    intro d h
    rw [List.foldl_cons, setdefault_noop d c _ (h c (by simp))]
    exact ih d (fun c hc => h c (by simp [hc]))

theorem aplicar_setdefault_noop (d : Fila) (h : d.map Prod.fst = COLUMNAS) :
    aplicar_setdefault d = d := by
  unfold aplicar_setdefault
  exact foldl_setdefault_noop COLUMNAS d (fun c hc => by rw [h]; exact hc)

/-- Shared helper: any successfully projected Row carries exactly the 21
schema keys, in schema order. -/
theorem construir_fila_oc_keys (dl : DateLib) (oc : Val) (row : Fila)
    (h : construir_fila_oc dl oc = .ok row) : row.map Prod.fst = COLUMNAS := by
  cases hv : construir_valores dl oc with
  | error e =>
    have he : construir_fila_oc dl oc = .error e := by
      unfold construir_fila_oc
      rw [hv, except_bind_error]
    rw [he] at h
    exact absurd h (by simp)
  | ok vs =>
    have he : construir_fila_oc dl oc = .ok (aplicar_setdefault (fila_de_valores vs)) := by
      unfold construir_fila_oc
      rw [hv, except_bind_ok]
    rw [he] at h
    simp only [Except.ok.injEq] at h
    rw [← h, aplicar_setdefault_noop _ (keys_fila_de_valores vs),
      keys_fila_de_valores]

/-- C5: for every detail record, whenever `construir_fila_oc` produces a
Row it contains exactly the 21 `COLUMNAS` field names, present and in
schema order (absent source fields defaulted to the empty string by the
resolution helpers). -/
theorem c5_esquema_completo (dl : DateLib) (oc : Val) (row : Fila)
    (h : construir_fila_oc dl oc = .ok row) :
    row.map Prod.fst = COLUMNAS ∧ row.length = 21 := by
  have hk := construir_fila_oc_keys dl oc row h
  refine ⟨hk, ?_⟩
  have := congrArg List.length hk
  simpa using this

theorem c5_witness :
    ∃ row, construir_fila_oc dl0 ocBueno = .ok row ∧
      row.map Prod.fst = COLUMNAS ∧ row.length = 21 := by
  have hok : (construir_fila_oc dl0 ocBueno).isOk = true := by decide
  cases hc : construir_fila_oc dl0 ocBueno with
  | error e => rw [hc] at hok; exact absurd hok (by simp [Except.isOk, Except.toBool])
  | ok row => exact ⟨row, rfl, c5_esquema_completo dl0 ocBueno row hc⟩

theorem obtener_moneda_ok (d : List (String × Val)) (pi : Val)
    (hp : pyTruthy pi = true → ∃ pd, pi = .vDict pd) :
    ∃ m, obtener_moneda (.vDict d) pi = .ok m := by
  unfold obtener_moneda
  simp only [pyGet, except_bind_ok]
  by_cases h1 : pyTruthy (normalizar_moneda ((dlookup d "Moneda").getD .vNone)) = true
  · rw [if_pos h1]
    exact ⟨_, rfl⟩
  · rw [if_neg h1]
    by_cases h2 : pyTruthy pi = true
    · obtain ⟨pd, rfl⟩ := hp h2
      rw [if_pos h2]
      simp only [pyGet, except_bind_ok]
      exact ⟨_, rfl⟩
    · rw [if_neg h2]
      exact ⟨_, rfl⟩

theorem obtener_fuente_ok (d : List (String × Val)) :
    ∃ s, obtener_fuente_financiamiento (.vDict d) = .ok s := by
  unfold obtener_fuente_financiamiento
  simp only [pyGet, except_bind_ok]
  by_cases h1 : (!(normalizar_texto ((dlookup d "FuenteFinanciamiento").getD .vNone)).isEmpty) = true
  · rw [if_pos h1]
    exact ⟨_, rfl⟩
  · rw [if_neg h1]
    by_cases h2 : (!(normalizar_texto ((dlookup d "Financiamiento").getD .vNone)).isEmpty) = true
    · rw [if_pos h2]
      exact ⟨_, rfl⟩
    · rw [if_neg h2]
      exact ⟨_, rfl⟩

/-- C8 counterexample: row projection is not total.  On the record
`\x7b"Fechas": "x"\x7d` — a scalar where a mapping is expected —
`construir_fila_oc` raises `AttributeError` at `fechas.get("FechaCreacion")`
instead of falling back to the empty string. -/
theorem c8_counterexample :
    construir_fila_oc dl0 ocFechasMalas = .error .attributeError := by rfl

/-- C8 (amended): `safe_get`, `normalizar_texto`, `normalizar_moneda` and
`formatear_fecha_salida` are total (they are plain functions in this
embedding, with no error component), and `construir_fila_oc` never raises
on a dict record PROVIDED the `Fechas` field defaults to a mapping and the
normalized first line item exists and, when truthy, is a mapping; without
that proviso it can raise (see the counterexample). -/
theorem c8_proyeccion_total (dl : DateLib) (d : List (String × Val)) (pi : Val)
    (hf : ∃ fd, pyOr ((dlookup d "Fechas").getD .vNone) (.vDict []) = .vDict fd)
    (hi : primer_item_de ((dlookup d "Items").getD .vNone) = .ok pi)
    (hp : pyTruthy pi = true → ∃ pd, pi = .vDict pd) :
    ∃ fila, construir_fila_oc dl (.vDict d) = .ok fila := by
  obtain ⟨fd, hfd⟩ := hf
  obtain ⟨m, hm⟩ := obtener_moneda_ok d pi hp
  obtain ⟨fuente, hfu⟩ := obtener_fuente_ok d
  unfold construir_fila_oc construir_valores
  simp only [pyGet, pyGetD, except_bind_ok, hfd, hi, hm, hfu]
  by_cases h2 : pyTruthy pi = true
  · obtain ⟨pd, rfl⟩ := hp h2
    simp only [if_pos h2, pyGetD, except_bind_ok]
    exact ⟨_, rfl⟩
  · simp only [if_neg h2, except_bind_ok]
    exact ⟨_, rfl⟩

theorem c8_witness :
    (∃ fd, pyOr ((dlookup (ocBuenoDict) "Fechas").getD .vNone) (.vDict []) = .vDict fd) ∧
      ∃ fila, construir_fila_oc dl0 (.vDict ocBuenoDict) = .ok fila := by
  refine ⟨⟨[("FechaCreacion", .vStr "0")], rfl⟩, ?_⟩
  exact c8_proyeccion_total dl0 ocBuenoDict (.vDict []) ⟨_, rfl⟩ rfl
    (fun h => ⟨[], rfl⟩)

/-- C2 (amended): the [desde, hasta] window of the fetch-phase validity
filter is inclusive at both ends: a record whose creation date is missing
or unparsable, strictly before `desde`, or strictly after `hasta` never
produces a Row; a record whose creation date equals `desde` or `hasta`
(with `desde ≤ hasta`, which `validar_rango` enforces) passes the filter
and produces a Row provided its projection succeeds — the projection
proviso is forced by the counterexample, where projection raises. -/
theorem procesarOC_con_fecha (dl : DateLib) (oc : Val) (desde hasta f : Int)
    (hf : parse_fecha_json dl (safe_get oc ["Fechas", "FechaCreacion"]) = some f) :
    procesarOC dl oc desde hasta =
      if f < desde ∨ hasta < f then .ok Option.none
      else construir_fila_oc dl oc >>= fun fila => .ok (some fila) := by
  unfold procesarOC
  rw [hf]

theorem c2_ventana_inclusiva (dl : DateLib) (oc : Val) (desde hasta : Int) :
    (parse_fecha_json dl (safe_get oc ["Fechas", "FechaCreacion"]) = Option.none →
      procesarOC dl oc desde hasta = .ok Option.none) ∧
    (∀ f, parse_fecha_json dl (safe_get oc ["Fechas", "FechaCreacion"]) = some f →
      (f < desde ∨ hasta < f) → procesarOC dl oc desde hasta = .ok Option.none) ∧
    (∀ f fila, parse_fecha_json dl (safe_get oc ["Fechas", "FechaCreacion"]) = some f →
      (f = desde ∨ f = hasta) → desde ≤ hasta →
      construir_fila_oc dl oc = .ok fila →
      procesarOC dl oc desde hasta = .ok (some fila)) := by
  refine ⟨?_, ?_, ?_⟩
  · intro h
    unfold procesarOC
    rw [h]
  · intro f hf hout
    rw [procesarOC_con_fecha dl oc desde hasta f hf, if_pos hout]
  · intro f fila hf hin hdh hrow
    have hnot : ¬ (f < desde ∨ hasta < f) := by
      rcases hin with h | h <;> omega
    rw [procesarOC_con_fecha dl oc desde hasta f hf, if_neg hnot, hrow, except_bind_ok]

theorem c2_witness :
    parse_fecha_json dl0 (safe_get ocBueno ["Fechas", "FechaCreacion"]) = some 0 ∧
      ∃ fila, construir_fila_oc dl0 ocBueno = .ok fila ∧
        procesarOC dl0 ocBueno 0 0 = .ok (some fila) := by
  refine ⟨rfl, ?_⟩
  have hok : (construir_fila_oc dl0 ocBueno).isOk = true := by decide
  cases hc : construir_fila_oc dl0 ocBueno with
  | error e => rw [hc] at hok; exact absurd hok (by simp [Except.isOk, Except.toBool])
  | ok fila =>
    exact ⟨fila, rfl,
      (c2_ventana_inclusiva dl0 ocBueno 0 0).2.2 0 fila rfl (Or.inl rfl) le_rfl hc⟩

/-- C2 counterexample: a record whose creation date equals `desde`
(`desde = hasta = 0`) but whose `Items` field is the scalar `5` produces
no Row — row projection raises `TypeError` — so "a record whose creation
date equals desde ... does produce a Row" is false as stated. -/
theorem c2_counterexample :
    parse_fecha_json dl0 (safe_get ocItemsMalos ["Fechas", "FechaCreacion"]) = some 0 ∧
      procesarOC dl0 ocItemsMalos 0 0 = .error .typeError := ⟨rfl, rfl⟩

/-! ## Discovery deduplication lemmas: claim C1 -/

theorem agregar_unico_caracterizacion (st : EstadoDedup) (c : Val)
    (hnd : st.1.Nodup) (hm : ∀ x, x ∈ st.2 ↔ x ∈ st.1) :
    (agregar_unico st c).1.Nodup ∧
      (∀ x, x ∈ (agregar_unico st c).2 ↔ x ∈ (agregar_unico st c).1) ∧
      (∀ x, x ∈ (agregar_unico st c).1 ↔ x ∈ st.1 ∨ x = c) := by
  unfold agregar_unico
  by_cases hc : st.2.contains c = true
  · rw [if_pos hc]
    have hcm : c ∈ st.1 := (hm c).mp ((contains_iff_mem _ _).mp hc)
    refine ⟨hnd, hm, fun x => ⟨Or.inl, ?_⟩⟩
    rintro (h | rfl)
    · exact h
    · exact hcm
  · rw [if_neg hc]
    have hcm : c ∉ st.1 := by
      intro h
      exact hc ((contains_iff_mem _ _).mpr ((hm c).mpr h))
    refine ⟨?_, ?_, ?_⟩
    · simp [List.nodup_append, hnd, hcm]
    · intro x
      simp only [List.mem_append, List.mem_singleton]
      rw [hm x]
    · intro x
      simp only [List.mem_append, List.mem_singleton]

theorem foldl_agregar_unico_caracterizacion (l : List Val) :
    ∀ st : EstadoDedup, st.1.Nodup → (∀ x, x ∈ st.2 ↔ x ∈ st.1) →
      (l.foldl agregar_unico st).1.Nodup ∧
        (∀ x, x ∈ (l.foldl agregar_unico st).2 ↔ x ∈ (l.foldl agregar_unico st).1) ∧
        (∀ x, x ∈ (l.foldl agregar_unico st).1 ↔ x ∈ st.1 ∨ x ∈ l) := by
  induction l with
  | nil =>
    intro st hnd hm
    refine ⟨hnd, hm, fun x => ?_⟩
    simp
  | cons c t ih =>
    intro st hnd hm
    have hstep := agregar_unico_caracterizacion st c hnd hm
    have hrec := ih (agregar_unico st c) hstep.1 hstep.2.1
    refine ⟨hrec.1, hrec.2.1, fun x => ?_⟩
    rw [List.foldl_cons] at *
    rw [hrec.2.2 x, hstep.2.2 x]
    simp only [List.mem_cons]
    tauto

theorem agregar_si_nuevo_un_paso (st : EstadoDedup) (c : Val) :
    agregar_si_nuevo st c = if pyTruthy c then agregar_unico st c else st := by
  unfold agregar_si_nuevo agregar_unico
  by_cases ht : pyTruthy c = true
  · rw [if_pos ht]
    by_cases hc : st.2.contains c = true
    · rw [if_pos hc, if_neg (by rw [ht, hc]; simp)]
    · have hc' : st.2.contains c = false := by simpa using hc
      rw [if_neg hc, if_pos (by rw [ht, hc']; rfl)]
  · have ht' : pyTruthy c = false := by simpa using ht
    rw [if_neg ht, if_neg (by rw [ht']; simp)]

theorem foldl_agregar_si_nuevo_eq (cs : List Val) :
    ∀ st : EstadoDedup,
      cs.foldl agregar_si_nuevo st = (cs.filter pyTruthy).foldl agregar_unico st := by
  induction cs with
  | nil => intro st; rfl
  | cons c t ih =>
    intro st
    rw [List.foldl_cons, agregar_si_nuevo_un_paso]
    by_cases ht : pyTruthy c = true
    · rw [if_pos ht, List.filter_cons_of_pos ht, List.foldl_cons, ih]
    · rw [if_neg ht, List.filter_cons_of_neg (by simpa using ht), ih]

theorem paso_listar_seq_ok (st : EstadoDedup) (c : CellResult) (st' : EstadoDedup) (b : Bool)
    (h : paso_listar_seq st c = .ok (st', b)) :
    ∃ cs, celda_codigos c = .ok cs ∧ st' = cs.foldl agregar_unico st := by
  cases c with
  | fail =>
    refine ⟨[], rfl, ?_⟩
    injection h with h'
    injection h' with h1 h2
    exact h1.symm
  | badJson =>
    refine ⟨[], rfl, ?_⟩
    injection h with h'
    injection h' with h1 h2
    exact h1.symm
  | payload p =>
    have h' : (do
        let regs ← lectura_listado p
        let cs ← extraer_todos regs
        .ok ((cs.foldl agregar_si_nuevo st : EstadoDedup), true)
        : Except PyErr (EstadoDedup × Bool)) = .ok (st', b) := h
    cases hr : lectura_listado p with
    | error e =>
      rw [hr, except_bind_error] at h'
      exact absurd h' (by simp)
    | ok regs =>
      rw [hr, except_bind_ok] at h'
      cases he : extraer_todos regs with
      | error e =>
        rw [he, except_bind_error] at h'
        exact absurd h' (by simp)
      | ok cs =>
        rw [he, except_bind_ok] at h'
        injection h' with h''
        injection h'' with h1 h2
        refine ⟨cs.filter pyTruthy, ?_, ?_⟩
        · show (do
            let regs ← lectura_listado p
            let cs ← extraer_todos regs
            .ok (cs.filter pyTruthy) : Except PyErr (List Val)) = _
          rw [hr, except_bind_ok, he, except_bind_ok]
        · rw [← h1, foldl_agregar_si_nuevo_eq]

theorem listar_seq_go_caracterizacion (cells : List CellResult) :
    ∀ (st stFin : EstadoDedup), st.1.Nodup → (∀ x, x ∈ st.2 ↔ x ∈ st.1) →
      listar_seq_go cells st = .ok stFin →
      stFin.1.Nodup ∧
        (∀ x, x ∈ stFin.2 ↔ x ∈ stFin.1) ∧
        (∀ c ∈ cells, ∃ cs, celda_codigos c = .ok cs) ∧
        (∀ x, x ∈ stFin.1 ↔
          x ∈ st.1 ∨ ∃ c ∈ cells, ∃ cs, celda_codigos c = .ok cs ∧ x ∈ cs) := by
  induction cells with
  | nil =>
    intro st stFin hnd hm h
    have hst : st = stFin := by
      injection h
    subst hst
    exact ⟨hnd, hm, by simp, fun x => by simp⟩
  | cons c t ih =>
    intro st stFin hnd hm h
    unfold listar_seq_go at h
    cases hp : paso_listar_seq st c with
    | error e =>
      rw [hp, except_bind_error] at h
      exact absurd h (by simp)
    | ok r =>
      rw [hp, except_bind_ok] at h
      obtain ⟨cs, hcs, hst'⟩ := paso_listar_seq_ok st c r.1 r.2 (by rw [hp])
      have hfold := foldl_agregar_unico_caracterizacion cs st hnd hm
      have hrec := ih r.1 stFin (hst' ▸ hfold.1) (hst' ▸ hfold.2.1) h
      refine ⟨hrec.1, hrec.2.1, ?_, ?_⟩
      · intro c' hc'
        rcases List.mem_cons.mp hc' with rfl | hc'
        · exact ⟨cs, hcs⟩
        · exact hrec.2.2.1 c' hc'
      · intro x
        rw [hrec.2.2.2 x, hst', hfold.2.2 x]
        constructor
        · rintro ((hx | hx) | ⟨c', hc', hcs', hx⟩)
          · exact Or.inl hx
          · exact Or.inr ⟨c, by simp, cs, hcs, hx⟩
          · exact Or.inr ⟨c', by simp [hc'], hcs', hx⟩
        · rintro (hx | ⟨c', hc', cs', hcs', hx⟩)
          · exact Or.inl (Or.inl hx)
          · rcases List.mem_cons.mp hc' with rfl | hc'
            · rw [hcs] at hcs'
              injection hcs' with hcs'
              subst hcs'
              exact Or.inl (Or.inr hx)
            · exact Or.inr ⟨c', hc', cs', hcs', hx⟩

theorem listar_seq_caracterizacion (cells : List CellResult) (codigos : List Val)
    (h : listar_seq cells = .ok codigos) :
    codigos.Nodup ∧
      (∀ c ∈ cells, ∃ cs, celda_codigos c = .ok cs) ∧
      (∀ x, x ∈ codigos ↔ ∃ c ∈ cells, ∃ cs, celda_codigos c = .ok cs ∧ x ∈ cs) := by
  unfold listar_seq at h
  cases hg : listar_seq_go cells ([], []) with
  | error e =>
    rw [hg, except_bind_error] at h
    exact absurd h (by simp)
  | ok stFin =>
    rw [hg, except_bind_ok] at h
    injection h with h'
    subst h'
    have hc := listar_seq_go_caracterizacion cells ([], []) stFin
      (by simp) (fun x => by simp) hg
    refine ⟨hc.1, hc.2.2.1, fun x => ?_⟩
    rw [hc.2.2.2 x]
    simp

theorem listar_conc_caracterizacion (cells : List CellResult) :
    (listar_conc cells).Nodup ∧
      (∀ x, x ∈ listar_conc cells ↔ ∃ c ∈ cells, x ∈ (procesar_celda c).1) := by
  suffices h : ∀ (st : EstadoDedup), st.1.Nodup → (∀ x, x ∈ st.2 ↔ x ∈ st.1) →
      (cells.foldl (fun st c => (procesar_celda c).1.foldl agregar_unico st) st).1.Nodup ∧
      (∀ x, x ∈ (cells.foldl (fun st c => (procesar_celda c).1.foldl agregar_unico st) st).2 ↔
        x ∈ (cells.foldl (fun st c => (procesar_celda c).1.foldl agregar_unico st) st).1) ∧
      (∀ x, x ∈ (cells.foldl (fun st c => (procesar_celda c).1.foldl agregar_unico st) st).1 ↔
        x ∈ st.1 ∨ ∃ c ∈ cells, x ∈ (procesar_celda c).1) by
    have hc := h ([], []) (by simp) (fun x => by simp)
    refine ⟨hc.1, fun x => ?_⟩
    unfold listar_conc
    rw [hc.2.2 x]
    simp
  induction cells with
  | nil =>
    intro st hnd hm
    refine ⟨hnd, hm, fun x => by simp⟩
  | cons c t ih =>
    intro st hnd hm
    have hfold := foldl_agregar_unico_caracterizacion (procesar_celda c).1 st hnd hm
    have hrec := ih _ hfold.1 hfold.2.1
    refine ⟨hrec.1, hrec.2.1, fun x => ?_⟩
    rw [List.foldl_cons, hrec.2.2 x, hfold.2.2 x]
    simp only [List.mem_cons]
    constructor
    · rintro ((hx | hx) | ⟨c', hc', hx⟩)
      · exact Or.inl hx
      · exact Or.inr ⟨c, Or.inl rfl, hx⟩
      · exact Or.inr ⟨c', Or.inr hc', hx⟩
    · rintro (hx | ⟨c', rfl | hc', hx⟩)
      · exact Or.inl (Or.inl hx)
      · exact Or.inl (Or.inr hx)
      · exact Or.inr ⟨c', hc', hx⟩

/-- C1: every identifier that appears in a Listing Result — the truthy
codes extracted from the `Listado` entries of a cell under either field
spelling — occurs exactly once in the identifier sequence discovery
returns, however many cells returned it.  Stated for the sequential loop
(conditioned on the phase completing) and for the concurrent merge. -/
theorem c1_deduplicacion :
    (∀ cells codigos, listar_seq cells = .ok codigos →
      ∀ x, (∃ c ∈ cells, ∃ cs, celda_codigos c = .ok cs ∧ x ∈ cs) →
        codigos.count x = 1) ∧
    (∀ cells x, (∃ c ∈ cells, x ∈ (procesar_celda c).1) →
      (listar_conc cells).count x = 1) := by
  constructor
  · intro cells codigos h x hx
    have hc := listar_seq_caracterizacion cells codigos h
    exact List.count_eq_one_of_mem hc.1 ((hc.2.2 x).mpr hx)
  · intro cells x hx
    have hc := listar_conc_caracterizacion cells
    exact List.count_eq_one_of_mem hc.1 ((hc.2 x).mpr hx)

theorem c1_witness :
    listar_seq celdasC1 = .ok [Val.vStr "A"] ∧
      ([Val.vStr "A"] : List Val).count (.vStr "A") = 1 := by
  have hls : listar_seq celdasC1 = .ok [Val.vStr "A"] := by rfl
  refine ⟨hls, ?_⟩
  exact c1_deduplicacion.1 celdasC1 [Val.vStr "A"] hls (.vStr "A")
    ⟨.payload payloadC1, by simp [celdasC1], [Val.vStr "A", Val.vStr "A", Val.vStr "A"],
      by rfl, by simp⟩

/-! ## Pacing delay: claim C7 -/

/-- C7 counterexample: in sequential mode a request that fails (retry
exhaustion or terminal status, `response is None`) hits `continue` before
the pacing sleep, in both phases — the recorded "slept" flag is `false`,
refuting "the delay is applied regardless of the request's outcome". -/
theorem c7_counterexample :
    paso_listar_seq ([], []) .fail = .ok (([], []), false) ∧
      paso_fetch dl0 .fail 0 0 = .ok (Option.none, false) := ⟨rfl, rfl⟩

/-- C7 (amended): the pacing delay is applied after every request only in
concurrent mode — always in the fetch workers (the sleep sits in a
`finally`), and in the discovery workers except when the extraction loop
itself raises.  In sequential mode the delay is skipped by every
early-`continue` iteration: discovery sleeps exactly on iterations whose
response was received and parsed as JSON, and fetch sleeps exactly on
iterations that accept a record. -/
theorem c7_pausa_por_modo :
    (∀ c : CellResult, (procesar_celda c).2 = false ↔
      ∃ p e, c = .payload p ∧ celda_codigos (.payload p) = .error e) ∧
    (∀ (dl : DateLib) (r : DetalleResp) (desde hasta : Int),
      (procesar_codigo_conc dl r desde hasta).2 = true) ∧
    (∀ (st st' : EstadoDedup) (c : CellResult) (b : Bool),
      paso_listar_seq st c = .ok (st', b) → (b = true ↔ ∃ p, c = .payload p)) ∧
    (∀ (dl : DateLib) (r : DetalleResp) (desde hasta : Int) (o : Option Fila) (b : Bool),
      paso_fetch dl r desde hasta = .ok (o, b) → (b = true ↔ o.isSome = true)) := by
  refine ⟨?_, ?_, ?_, ?_⟩
  · intro c
    cases c with
    | fail => simp [procesar_celda]
    | badJson => simp [procesar_celda]
    | payload p =>
      cases hcel : celda_codigos (.payload p) with
      | error e =>
        simp only [procesar_celda, hcel]
        exact ⟨fun _ => ⟨p, e, rfl, hcel⟩, fun _ => trivial⟩
      | ok cs =>
        simp only [procesar_celda, hcel]
        constructor
        · intro h
          exact absurd h (by simp)
        · rintro ⟨p', e, hp, hcel'⟩
          injection hp with hp
          subst hp
          rw [hcel] at hcel'
          exact absurd hcel' (by simp)
  · intro dl r desde hasta
    unfold procesar_codigo_conc
    cases hp : paso_fetch dl r desde hasta with
    | error e => rfl
    | ok res =>
      obtain ⟨o, b⟩ := res
      rfl
  · intro st st' c b h
    cases c with
    | fail =>
      injection h with h'
      injection h' with h1 h2
      subst h2
      simp
    | badJson =>
      injection h with h'
      injection h' with h1 h2
      subst h2
      simp
    | payload p =>
      have h' : (do
          let regs ← lectura_listado p
          let cs ← extraer_todos regs
          .ok ((cs.foldl agregar_si_nuevo st : EstadoDedup), true)
          : Except PyErr (EstadoDedup × Bool)) = .ok (st', b) := h
      cases hr : lectura_listado p with
      | error e =>
        rw [hr, except_bind_error] at h'
        exact absurd h' (by simp)
      | ok regs =>
        rw [hr, except_bind_ok] at h'
        cases he : extraer_todos regs with
        | error e =>
          rw [he, except_bind_error] at h'
          exact absurd h' (by simp)
        | ok cs =>
          rw [he, except_bind_ok] at h'
          injection h' with h''
          injection h'' with h1 h2
          subst h2
          simp
  · intro dl r desde hasta o b h
    cases r with
    | fail =>
      injection h with h'
      injection h' with h1 h2
      subst h1; subst h2
      simp
    | badJson =>
      injection h with h'
      injection h' with h1 h2
      subst h1; subst h2
      simp
    | payload p =>
      have h' : (do
          let lraw ← pyGet p "Listado"
          let listado :=
            match pyOr lraw (.vList []) with
            | .vDict d => Val.vList [.vDict d]
            | v => v
          if pyTruthy listado = true then do
            let oc ← pyIndex0 listado
            match ← procesarOC dl oc desde hasta with
            | Option.none => .ok (Option.none, false)
            | some fila => .ok (some fila, true)
          else .ok (Option.none, false)
          : Except PyErr (Option Fila × Bool)) = .ok (o, b) := h
      cases hl : pyGet p "Listado" with
      | error e =>
        rw [hl, except_bind_error] at h'
        exact absurd h' (by simp)
      | ok lraw =>
        rw [hl, except_bind_ok] at h'
        by_cases hT : pyTruthy
            (match pyOr lraw (.vList []) with
              | .vDict d => Val.vList [.vDict d]
              | v => v) = true
        · rw [if_pos hT] at h'
          cases hi : pyIndex0
              (match pyOr lraw (.vList []) with
                | .vDict d => Val.vList [.vDict d]
                | v => v) with
          | error e =>
            rw [hi, except_bind_error] at h'
            exact absurd h' (by simp)
          | ok oc =>
            rw [hi, except_bind_ok] at h'
            cases hoc : procesarOC dl oc desde hasta with
            | error e =>
              rw [hoc, except_bind_error] at h'
              exact absurd h' (by simp)
            | ok res =>
              rw [hoc, except_bind_ok] at h'
              cases res with
              | none =>
                injection h' with h''
                injection h'' with h1 h2
                subst h1; subst h2
                simp
              | some fila =>
                injection h' with h''
                injection h'' with h1 h2
                subst h1; subst h2
                simp
        · rw [if_neg hT] at h'
          injection h' with h''
          injection h'' with h1 h2
          subst h1; subst h2
          simp

theorem c7_witness :
    (true = true ↔ (some filaBuena).isSome = true) ∧
      (true = true ↔ ∃ p, CellResult.payload payloadC1 = .payload p) := by
  constructor
  · exact c7_pausa_por_modo.2.2.2 dl0 (detalleBueno (.vStr "A")) 0 0 (some filaBuena) true
      (by rfl)
  · exact c7_pausa_por_modo.2.2.1 ([], [])
      (([Val.vStr "A"], [Val.vStr "A"]) : EstadoDedup) (.payload payloadC1) true (by rfl)

/-! ## Worker-count equivalence: claim C9 -/

theorem filas_en_flush_foldl (pre : Option (List Fila)) (B : Nat) (rows : List Fila) :
    filas_en (flush (rows.foldl (aceptar B) (estado_inicial pre))).archivo = rows := by
  have hini : (estado_inicial pre).archivo = Option.none := by cases pre <;> rfl
  have hconcat := foldl_aceptar_concat B rows (estado_inicial pre)
  rw [hini] at hconcat
  simp only [filas_en, estado_inicial, List.nil_append] at hconcat
  have hfc := flush_concat (rows.foldl (aceptar B) (estado_inicial pre))
  rw [hfc.1]
  simpa using hconcat

theorem procesar_celda_de_ok (c : CellResult) (cs : List Val)
    (h : celda_codigos c = .ok cs) : (procesar_celda c).1 = cs := by
  cases c with
  | fail => injection h with h'
  | badJson => injection h with h'
  | payload p =>
    simp only [procesar_celda, h]

theorem procesarOC_fila_de_construir (dl : DateLib) (oc : Val) (desde hasta : Int)
    (fila : Fila) (h : procesarOC dl oc desde hasta = .ok (some fila)) :
    construir_fila_oc dl oc = .ok fila := by
  unfold procesarOC at h
  cases hp : parse_fecha_json dl (safe_get oc ["Fechas", "FechaCreacion"]) with
  | none =>
    rw [hp] at h
    have h' : (Except.ok (Option.none : Option Fila) : Except PyErr (Option Fila)) =
        .ok (some fila) := h
    exact absurd h' (by simp)
  | some f =>
    rw [hp] at h
    have h' : (if f < desde ∨ hasta < f then
          (Except.ok (Option.none : Option Fila) : Except PyErr (Option Fila))
        else construir_fila_oc dl oc >>= fun fl => .ok (some fl)) = .ok (some fila) := h
    by_cases hf : f < desde ∨ hasta < f
    · rw [if_pos hf] at h'
      exact absurd h' (by simp)
    · rw [if_neg hf] at h'
      cases hc : construir_fila_oc dl oc with
      | error e =>
        rw [hc, except_bind_error] at h'
        exact absurd h' (by simp)
      | ok fl =>
        rw [hc, except_bind_ok] at h'
        injection h' with h''
        injection h'' with h3
        rw [h3]

theorem paso_fetch_fila_construida (dl : DateLib) (r : DetalleResp) (desde hasta : Int)
    (fila : Fila) (b : Bool) (h : paso_fetch dl r desde hasta = .ok (some fila, b)) :
    ∃ oc, construir_fila_oc dl oc = .ok fila := by
  cases r with
  | fail =>
    injection h with h'
    injection h' with h1 h2
    exact absurd h1 (by simp)
  | badJson =>
    injection h with h'
    injection h' with h1 h2
    exact absurd h1 (by simp)
  | payload p =>
    have h' : (do
        let lraw ← pyGet p "Listado"
        let listado :=
          match pyOr lraw (.vList []) with
          | .vDict d => Val.vList [.vDict d]
          | v => v
        if pyTruthy listado = true then do
          let oc ← pyIndex0 listado
          match ← procesarOC dl oc desde hasta with
          | Option.none => .ok (Option.none, false)
          | some fl => .ok (some fl, true)
        else .ok (Option.none, false)
        : Except PyErr (Option Fila × Bool)) = .ok (some fila, b) := h
    cases hl : pyGet p "Listado" with
    | error e =>
      rw [hl, except_bind_error] at h'
      exact absurd h' (by simp)
    | ok lraw =>
      rw [hl, except_bind_ok] at h'
      by_cases hT : pyTruthy
          (match pyOr lraw (.vList []) with
            | .vDict d => Val.vList [.vDict d]
            | v => v) = true
      · rw [if_pos hT] at h'
        cases hi : pyIndex0
            (match pyOr lraw (.vList []) with
              | .vDict d => Val.vList [.vDict d]
              | v => v) with
        | error e =>
          rw [hi, except_bind_error] at h'
          exact absurd h' (by simp)
        | ok oc =>
          rw [hi, except_bind_ok] at h'
          cases hoc : procesarOC dl oc desde hasta with
          | error e =>
            rw [hoc, except_bind_error] at h'
            exact absurd h' (by simp)
          | ok res =>
            rw [hoc, except_bind_ok] at h'
            cases res with
            | none =>
              injection h' with h''
              injection h'' with h1 h2
              exact absurd h1 (by simp)
            | some fl =>
              injection h' with h''
              injection h'' with h1 h2
              injection h1 with h1
              exact ⟨oc, h1 ▸ procesarOC_fila_de_construir dl oc desde hasta fl hoc⟩
      · rw [if_neg hT] at h'
        injection h' with h''
        injection h'' with h1 h2
        exact absurd h1 (by simp)

theorem paso_fetch_fila_no_vacia (dl : DateLib) (r : DetalleResp) (desde hasta : Int)
    (fila : Fila) (b : Bool) (h : paso_fetch dl r desde hasta = .ok (some fila, b)) :
    fila ≠ [] := by
  obtain ⟨oc, hc⟩ := paso_fetch_fila_construida dl r desde hasta fila b h
  have hk := construir_fila_oc_keys dl oc fila hc
  intro hnil
  rw [hnil] at hk
  exact absurd hk.symm (by simp [COLUMNAS])

theorem colectada_eq_aceptada (dl : DateLib) (detalle : Val → DetalleResp)
    (desde hasta : Int) (c : Val) (o : Option Fila) (b : Bool)
    (hp : paso_fetch dl (detalle c) desde hasta = .ok (o, b)) :
    fila_colectada dl detalle desde hasta c = fila_aceptada dl detalle desde hasta c := by
  unfold fila_colectada fila_aceptada procesar_codigo_conc
  rw [hp]
  cases o with
  | none => rfl
  | some fila =>
    have hne : fila.isEmpty = false := by
      have := paso_fetch_fila_no_vacia dl (detalle c) desde hasta fila b hp
      simpa [List.isEmpty_iff] using this
    simp [hne]

theorem descargar_seq_go_ok (dl : DateLib) (detalle : Val → DetalleResp)
    (desde hasta : Int) (B : Nat) (cods : List Val) :
    ∀ s : SinkState, (∀ c ∈ cods, ∃ o b, paso_fetch dl (detalle c) desde hasta = .ok (o, b)) →
      descargar_seq_go dl detalle desde hasta B cods s =
        (flush ((cods.filterMap (fila_aceptada dl detalle desde hasta)).foldl
          (aceptar B) s), false) := by
  induction cods with
  | nil => intro s _; rfl
  | cons c t ih =>
    intro s hok
    obtain ⟨o, b, hp⟩ := hok c (by simp)
    have hok' : ∀ c' ∈ t, ∃ o b, paso_fetch dl (detalle c') desde hasta = .ok (o, b) :=
      fun c' hc' => hok c' (by simp [hc'])
    have hfc : fila_aceptada dl detalle desde hasta c = o := by
      unfold fila_aceptada
      rw [hp]
    unfold descargar_seq_go
    rw [hp]
    cases o with
    | none =>
      rw [List.filterMap_cons, hfc]
      exact ih s hok'
    | some fila =>
      rw [List.filterMap_cons, hfc, List.foldl_cons]
      exact ih (aceptar B s fila) hok'

theorem paso_conc_sink (dl : DateLib) (detalle : Val → DetalleResp)
    (desde hasta : Int) (B : Nat) (s : SinkState) (c : Val) :
    (match procesar_codigo_conc dl (detalle c) desde hasta with
      | (some fila, _) => if fila.isEmpty then s else aceptar B s fila
      | (Option.none, _) => s) =
    (match fila_colectada dl detalle desde hasta c with
      | some fila => aceptar B s fila
      | Option.none => s) := by
  unfold fila_colectada
  cases hpc : procesar_codigo_conc dl (detalle c) desde hasta with
  | mk o b =>
    cases o with
    | none => rfl
    | some fila =>
      by_cases he : fila.isEmpty = true
      · simp [he]
      · have he' : fila.isEmpty = false := by simpa using he
        simp [he']

theorem descargar_conc_foldl (dl : DateLib) (detalle : Val → DetalleResp)
    (desde hasta : Int) (B : Nat) (cods : List Val) :
    ∀ s : SinkState,
      cods.foldl (fun s c =>
        match procesar_codigo_conc dl (detalle c) desde hasta with
        | (some fila, _) => if fila.isEmpty then s else aceptar B s fila
        | (Option.none, _) => s) s =
      (cods.filterMap (fila_colectada dl detalle desde hasta)).foldl (aceptar B) s := by
  induction cods with
  | nil => intro s; rfl
  | cons c t ih =>
    intro s
    rw [List.foldl_cons, List.filterMap_cons, paso_conc_sink dl detalle desde hasta B s c]
    cases hg : fila_colectada dl detalle desde hasta c with
    | none => exact ih s
    | some fila =>
      rw [List.foldl_cons]
      exact ih (aceptar B s fila)

theorem descargar_conc_eq (dl : DateLib) (detalle : Val → DetalleResp)
    (desde hasta : Int) (B : Nat) (pre : Option (List Fila)) (cods : List Val) :
    descargar_conc dl detalle desde hasta B pre cods =
      (flush ((cods.filterMap (fila_colectada dl detalle desde hasta)).foldl
        (aceptar B) (estado_inicial pre))).archivo := by
  unfold descargar_conc
  rw [descargar_conc_foldl]

/-- C9 (amended): for a fixed set of canned responses, if the sequential
(worker count 1) run completes without an uncaught exception — discovery
returns, and the projection of no accepted record raises — then for every
completion order of the concurrent tasks (any permutation of the cells,
and any permutation of the discovered codes) the concurrent (worker count
N > 1) run produces the same multiset of Rows in the output table, and
the sequential run indeed did not abort.  Without the no-exception
proviso the claim is false (see the counterexample): a projection error
aborts the sequential run and suppresses its final flush, while the
concurrent run merely skips that record. -/
theorem c9_equivalencia_multiconjunto (dl : DateLib) (detalle : Val → DetalleResp)
    (desde hasta : Int) (B : Nat) (pre₁ pre₂ : Option (List Fila))
    (cells cellsP : List CellResult) (codigosS codsP : List Val)
    (hseq : listar_seq cells = .ok codigosS)
    (hperm : cellsP.Perm cells)
    (hcods : codsP.Perm (listar_conc cellsP))
    (hok : ∀ c ∈ codigosS, ∃ o b, paso_fetch dl (detalle c) desde hasta = .ok (o, b)) :
    (filas_en (descargar_conc dl detalle desde hasta B pre₂ codsP)).Perm
      (filas_en (descargar_seq dl detalle desde hasta B pre₁ codigosS).1) ∧
    (descargar_seq dl detalle desde hasta B pre₁ codigosS).2 = false := by
  have hseqc := listar_seq_caracterizacion cells codigosS hseq
  have hconcc := listar_conc_caracterizacion cellsP
  have hmem : ∀ x, x ∈ listar_conc cellsP ↔ x ∈ codigosS := by
    intro x
    rw [hconcc.2 x, hseqc.2.2 x]
    constructor
    · rintro ⟨c, hc, hx⟩
      have hc' : c ∈ cells := hperm.mem_iff.mp hc
      obtain ⟨cs, hcs⟩ := hseqc.2.1 c hc'
      have hpc := procesar_celda_de_ok c cs hcs
      exact ⟨c, hc', cs, hcs, hpc ▸ hx⟩
    · rintro ⟨c, hc, cs, hcs, hx⟩
      refine ⟨c, hperm.mem_iff.mpr hc, ?_⟩
      rw [procesar_celda_de_ok c cs hcs]
      exact hx
  have hpermcs : (listar_conc cellsP).Perm codigosS :=
    (List.perm_ext_iff_of_nodup hconcc.1 hseqc.1).mpr hmem
  have hcodsS : codsP.Perm codigosS := hcods.trans hpermcs
  have hgo := descargar_seq_go_ok dl detalle desde hasta B codigosS (estado_inicial pre₁) hok
  have hseqfile : (descargar_seq dl detalle desde hasta B pre₁ codigosS).1 =
      (flush ((codigosS.filterMap (fila_aceptada dl detalle desde hasta)).foldl
        (aceptar B) (estado_inicial pre₁))).archivo := by
    unfold descargar_seq
    rw [hgo]
  have hseqcrash : (descargar_seq dl detalle desde hasta B pre₁ codigosS).2 = false := by
    unfold descargar_seq
    rw [hgo]
  have hfilasSeq : filas_en (descargar_seq dl detalle desde hasta B pre₁ codigosS).1 =
      codigosS.filterMap (fila_aceptada dl detalle desde hasta) := by
    rw [hseqfile, filas_en_flush_foldl]
  have hfilasConc : filas_en (descargar_conc dl detalle desde hasta B pre₂ codsP) =
      codsP.filterMap (fila_colectada dl detalle desde hasta) := by
    rw [descargar_conc_eq, filas_en_flush_foldl]
  have hcong : codsP.filterMap (fila_colectada dl detalle desde hasta) =
      codsP.filterMap (fila_aceptada dl detalle desde hasta) := by
    refine List.filterMap_congr (fun c hc => ?_)
    have hcS : c ∈ codigosS := hcodsS.mem_iff.mp hc
    obtain ⟨o, b, hp⟩ := hok c hcS
    exact colectada_eq_aceptada dl detalle desde hasta c o b hp
  refine ⟨?_, hseqcrash⟩
  rw [hfilasSeq, hfilasConc, hcong]
  exact hcodsS.filterMap _

theorem c9_witness :
    listar_seq celdasC9w = .ok [Val.vStr "A"] ∧
      (filas_en (descargar_conc dl0 detalleBueno 0 0 1 Option.none [Val.vStr "A"])).Perm
        (filas_en (descargar_seq dl0 detalleBueno 0 0 1 Option.none [Val.vStr "A"]).1) := by
  have hseq : listar_seq celdasC9w = .ok [Val.vStr "A"] := by rfl
  refine ⟨hseq, ?_⟩
  exact (c9_equivalencia_multiconjunto dl0 detalleBueno 0 0 1 Option.none Option.none
    celdasC9w celdasC9w [Val.vStr "A"] [Val.vStr "A"] hseq (List.Perm.refl _)
    (List.Perm.refl _)
    (fun c hc => by
      rw [List.mem_singleton] at hc
      subst hc
      exact ⟨some filaBuena, true, by rfl⟩)).1

/-- C9 counterexample: on canned responses where discovery finds the codes
"A" (clean record) and "B" (record whose projection raises `TypeError`),
the sequential run aborts before its final flush and leaves no output
file, while the concurrent run with the same completion order catches the
worker exception, skips "B" and writes the Row of "A": the final Row
multisets differ, so worker count 1 and worker count N are not
output-equivalent as claimed. -/
theorem c9_counterexample :
    listar_seq celdas9 = .ok [Val.vStr "A", Val.vStr "B"] ∧
      listar_conc celdas9 = [Val.vStr "A", Val.vStr "B"] ∧
      (descargar_seq dl0 detalle9 0 0 1000 Option.none
        [Val.vStr "A", Val.vStr "B"]).1 = Option.none ∧
      descargar_conc dl0 detalle9 0 0 1000 Option.none
        [Val.vStr "A", Val.vStr "B"] = some [filaBuena] ∧
      ¬ (filas_en (descargar_conc dl0 detalle9 0 0 1000 Option.none
          [Val.vStr "A", Val.vStr "B"])).Perm
        (filas_en (descargar_seq dl0 detalle9 0 0 1000 Option.none
          [Val.vStr "A", Val.vStr "B"]).1) := by
  refine ⟨by rfl, by rfl, by rfl, by rfl, ?_⟩
  intro hperm
  have hlen := hperm.length_eq
  rw [show (descargar_seq dl0 detalle9 0 0 1000 Option.none
      [Val.vStr "A", Val.vStr "B"]).1 = Option.none from rfl,
    show descargar_conc dl0 detalle9 0 0 1000 Option.none
      [Val.vStr "A", Val.vStr "B"] = some [filaBuena] from rfl] at hlen
  simp [filas_en] at hlen

end MP
